import Mathlib

/-!
Shallow embedding of the streaming-orchestration core of the Stilq repository
(`functions/src/index.ts`, `functions/src/handlers/error-handler.ts`,
`functions/src/handlers/chat-cleanup.ts`, the pro-image handler and the image
utilities), together with theorems settling the frozen claims about it.

TypeScript values are modelled as follows: strings are `String` (with the
empty string standing for absent/falsy where the source relies on JS
truthiness), optional object fields are `Option`, byte buffers are `List Nat`
(one byte per entry), and fallible provider calls are explicit outcome
parameters (`Except`).  Machine integers never overflow in the embedded code
paths (all sizes are far below 2^53), so `Nat` is used directly.
-/

namespace Stilq

/-! ## JavaScript string and buffer primitives -/

/-- Characters removed by `String.prototype.trim`.  The common ASCII
whitespace characters are modelled; the exotic Unicode spaces that JS also
trims do not occur in any claim. -/
def isJsSpace (c : Char) : Bool :=
  c = ' ' || c = '\t' || c = '\n' || c = '\r' || c = '\x0b' || c = '\x0c'

/-- `s.trim().length === 0` — true iff the string is empty or whitespace-only. -/
def jsTrimEmpty (s : String) : Bool :=
  s.data.all isJsSpace

/-- `s.startsWith(pre)` over the underlying character lists. -/
def strStartsWith (s pre : String) : Bool :=
  pre.data.isPrefixOf s.data

/-- Value of a base64 alphabet character (code points compared numerically:
65–90 upper, 97–122 lower, 48–57 digit, 43 plus, 47 slash). -/
def b64Val (c : Char) : Option Nat :=
  let n := c.toNat
  if 65 ≤ n ∧ n ≤ 90 then some (n - 65)
  else if 97 ≤ n ∧ n ≤ 122 then some (n - 71)
  else if 48 ≤ n ∧ n ≤ 57 then some (n + 4)
  else if n = 43 then some 62
  else if n = 47 then some 63
  else none

/-- Decode a run of base64 digit values into bytes: 4 digits give 3 bytes,
a trailing group of 3 gives 2 bytes, of 2 gives 1 byte, of 1 gives none. -/
def b64Group : List Nat → List Nat
  | a :: b :: c :: d :: rest =>
      (a * 4 + b / 16) :: ((b % 16) * 16 + c / 4) :: ((c % 4) * 64 + d) :: b64Group rest
  | [a, b, c] => [a * 4 + b / 16, (b % 16) * 16 + c / 4]
  | [a, b] => [a * 4 + b / 16]
  | [_] => []
  | [] => []

/-- `Buffer.from(s, 'base64')`: Node's decoder is lenient — characters outside
the base64 alphabet (including `=` padding) are skipped, and it never throws. -/
def b64Decode (s : String) : List Nat :=
  b64Group (s.data.filterMap b64Val)

/-- `buffer[i]` as used in boolean comparisons: an out-of-range read yields
`undefined`, which compares unequal to every byte; 256 is the sentinel. -/
def byteAt (bs : List Nat) (i : Nat) : Nat :=
  bs.getD i 256

/-- `buffer.readUInt32BE(off)` — `none` models the `RangeError` Node throws
on an out-of-bounds read. -/
def readUInt32BE (bs : List Nat) (off : Nat) : Option Nat :=
  if off + 4 ≤ bs.length then
    some (bs.getD off 0 * 16777216 + bs.getD (off + 1) 0 * 65536 +
      bs.getD (off + 2) 0 * 256 + bs.getD (off + 3) 0)
  else none

/-- `buffer.readUInt16BE(off)`. -/
def readUInt16BE (bs : List Nat) (off : Nat) : Option Nat :=
  if off + 2 ≤ bs.length then
    some (bs.getD off 0 * 256 + bs.getD (off + 1) 0)
  else none

/-- `buffer.readUInt16LE(off)`. -/
def readUInt16LE (bs : List Nat) (off : Nat) : Option Nat :=
  if off + 2 ≤ bs.length then
    some (bs.getD (off + 1) 0 * 256 + bs.getD off 0)
  else none

/-- `buffer.readUInt32LE(off)`. -/
def readUInt32LE (bs : List Nat) (off : Nat) : Option Nat :=
  if off + 4 ≤ bs.length then
    some (bs.getD (off + 3) 0 * 16777216 + bs.getD (off + 2) 0 * 65536 +
      bs.getD (off + 1) 0 * 256 + bs.getD off 0)
  else none

/-! ## Image utilities (`functions/src/utils/image.ts`)

`getImageDimensions`, `calculateAspectRatio` and `detectAspectRatio` are
embedded from the source.  The outer `try`/`catch` of `getImageDimensions`
(which turns a buffer `RangeError` into `null`) is modelled by `Option`
propagation. -/

/-- The JPEG marker scan loop of `getImageDimensions` (the `while` over
`offset`); returns the dimensions at the first `0xC0`/`0xC2` marker. -/
def jpegScan (bs : List Nat) (offset : Nat) : Option (Nat × Nat) :=
  if h : offset + 9 < bs.length then
    if byteAt bs offset = 0xFF then
      let marker := byteAt bs (offset + 1)
      if marker = 0xC0 ∨ marker = 0xC2 then
        match readUInt16BE bs (offset + 7), readUInt16BE bs (offset + 5) with
        | some w, some hgt => some (w, hgt)
        | _, _ => none
      else
        match readUInt16BE bs (offset + 2) with
        | some v => jpegScan bs (offset + 2 + v)
        | none => none
    else jpegScan bs (offset + 1)
  else none
termination_by bs.length - offset
decreasing_by
  · omega
  · omega

/-- `getImageDimensions(base64)` — parses PNG, JPEG and WebP headers from the
base64-decoded bytes, `none` on anything unrecognized or out-of-range. -/
def getImageDimensions (base64 : String) : Option (Nat × Nat) :=
  let bs := b64Decode base64
  if byteAt bs 0 = 0x89 ∧ byteAt bs 1 = 0x50 ∧ byteAt bs 2 = 0x4E ∧ byteAt bs 3 = 0x47 then
    match readUInt32BE bs 16, readUInt32BE bs 20 with
    | some w, some h => some (w, h)
    | _, _ => none
  else if byteAt bs 0 = 0xFF ∧ byteAt bs 1 = 0xD8 then
    jpegScan bs 2
  else if byteAt bs 0 = 0x52 ∧ byteAt bs 1 = 0x49 ∧ byteAt bs 2 = 0x46 ∧ byteAt bs 3 = 0x46 then
    if byteAt bs 12 = 0x56 ∧ byteAt bs 13 = 0x50 ∧ byteAt bs 14 = 0x38 then
      if byteAt bs 15 = 0x20 then
        match readUInt16LE bs 26, readUInt16LE bs 28 with
        | some w, some h => some (w % 16384, h % 16384)
        | _, _ => none
      else if byteAt bs 15 = 0x4C then
        match readUInt32LE bs 21 with
        | some bits => some (bits % 16384 + 1, bits / 16384 % 16384 + 1)
        | none => none
      else none
    else none
  else none

/-- `calculateAspectRatio(width, height)`.  The source divides IEEE doubles;
here the ratio is a rational.  `height = 0` is special-cased to mirror the
float semantics the source would exhibit (`width/0` is `Infinity`, so only
the final `ratio > 1` test fires; `0/0` is `NaN`, so every test fails). -/
def aspectBuckets (ratio : ℚ) : String :=
  if |ratio - 1| < 1/10 then "1:1"
  else if |ratio - 16/9| < 1/10 then "16:9"
  else if |ratio - 9/16| < 1/10 then "9:16"
  else if |ratio - 4/3| < 1/10 then "4:3"
  else if |ratio - 3/4| < 1/10 then "3:4"
  else if |ratio - 3/2| < 1/10 then "3:2"
  else if |ratio - 2/3| < 1/10 then "2:3"
  else if ratio > 1 then "16:9"
  else "9:16"

def calculateAspectRatio (width height : Nat) : String :=
  if height = 0 then
    if width > 0 then "16:9" else "9:16"
  else aspectBuckets ((width : ℚ) / (height : ℚ))

/-- `detectAspectRatio(base64)`. -/
def detectAspectRatio (base64 : String) : String :=
  match getImageDimensions base64 with
  | some (w, h) => calculateAspectRatio w h
  | none => "1:1"

/-- The closed set of ratio strings `calculateAspectRatio` can produce. -/
def ratioStrings : List String :=
  ["1:1", "16:9", "9:16", "4:3", "3:4", "3:2", "2:3"]

/-! ## Stream Multiplexer and Retry Supervisor
(`functions/src/handlers/error-handler.ts`)

One upstream streaming response is a list of chunks plus a flag saying
whether the provider throws after they are delivered (a throw after a proper
prefix of a longer stream is the same as a throw at the end of the prefix,
so this loses no generality).  `res.write` calls are collected as a list of
typed events; `console.log` calls produce nothing. -/

/-- A client-facing SSE event, one per `res.write`. -/
inductive SEvent
  | text (s : String)
  | thinking (s : String)
  | image (mimeType data : String)
  | graph (mimeType data aspect : String)
  | sources (l : List (String × String))
  | retryNotice (model fromModel : String)
  | done
  | error (msg : String)
deriving DecidableEq, Repr

/-- `part.inlineData` — `mimeType` empty models an absent/falsy field. -/
structure InlineData where
  mimeType : String := ""
  data : String := ""
deriving DecidableEq, Repr

/-- One element of `candidates[0].content.parts`.  `text = ""` models an
absent or empty (falsy) `part.text`; `executableCode` is only logged by the
source, so only its presence is recorded. -/
structure SPart where
  thought : Bool := false
  text : String := ""
  executableCode : Bool := false
  codeExecutionResult : Option String := none
  inlineData : Option InlineData := none
deriving DecidableEq, Repr

/-- `groundingChunks[i].web` — `title = ""` models an absent/falsy title. -/
structure GroundingWeb where
  title : String := ""
  uri : String := ""
deriving DecidableEq, Repr

structure GroundingChunk where
  web : Option GroundingWeb := none
deriving DecidableEq, Repr

structure GroundingMetadata where
  groundingChunks : Option (List GroundingChunk) := none
deriving DecidableEq, Repr

structure SCandidate where
  parts : Option (List SPart) := none
  groundingMetadata : Option GroundingMetadata := none
deriving DecidableEq, Repr

/-- One upstream stream chunk.  `text = ""` models a falsy `chunk.text`. -/
structure SChunk where
  candidates : Option (List SCandidate) := none
  text : String := ""
  groundingMetadata : Option GroundingMetadata := none
deriving DecidableEq, Repr

/-- An upstream response: the chunks delivered, and whether the provider
throws afterwards (caught by `streamWithRetry`'s `try`/`catch`). -/
structure Upstream where
  chunks : List SChunk := []
  throws : Bool := false
deriving DecidableEq, Repr

/-- The value `streamWithRetry` resolves with. -/
structure StreamResult where
  text : String
  success : Bool
deriving DecidableEq, Repr

/-- Characters of the class `[A-Za-z0-9+/=]` in the base64-image regex. -/
def isB64RegexChar (c : Char) : Bool :=
  c.isAlpha || c.isDigit || c = '+' || c = '/' || c = '='

/-- Alternatives of the image-format group, in regex alternation order. -/
def imageFormats : List String :=
  ["png", "jpeg", "jpg", "gif", "webp"]

/-- Try the format alternatives at a fixed position: the first format that is
followed by `;base64,` and at least one class character matches; the data
group is greedy. -/
def imageFormatMatch (rest : List Char) : Option (String × String) :=
  imageFormats.findSome? fun fmt =>
    if fmt.data.isPrefixOf rest then
      let afterFmt := rest.drop fmt.length
      if ";base64,".data.isPrefixOf afterFmt then
        let run := (afterFmt.drop 8).takeWhile isB64RegexChar
        if run.isEmpty then none else some (fmt, String.mk run)
      else none
    else none

/-- Try the whole regex `data:image\/(png|jpeg|jpg|gif|webp);base64,(...)`
at one position. -/
def imageMatchAt (cs : List Char) : Option (String × String) :=
  if "data:image/".data.isPrefixOf cs then
    imageFormatMatch (cs.drop 11)
  else none

/-- Leftmost match of the base64-image regex (`output.match(...)`). -/
def findImageMatch : List Char → Option (String × String)
  | [] => none
  | c :: cs =>
    match imageMatchAt (c :: cs) with
    | some m => some m
    | none => findImageMatch cs

/-- Handle one part of a chunk: the events written for it, in source order
(code-execution image, inline-data graph, thinking/text), and the string
appended to `fullText` (empty for thought parts — only plain text
accumulates). -/
def processPart (p : SPart) : List SEvent × String :=
  let codeEvents :=
    match p.codeExecutionResult with
    | some output =>
      match findImageMatch output.data with
      | some (fmt, payload) => [SEvent.image ("image/" ++ fmt) payload]
      | none => []
    | none => []
  let graphEvents :=
    match p.inlineData with
    | some d =>
      [SEvent.graph (if d.mimeType = "" then "image/png" else d.mimeType)
        d.data (detectAspectRatio d.data)]
    | none => []
  let textStep : List SEvent × String :=
    if p.thought ∧ p.text ≠ "" then ([SEvent.thinking p.text], "")
    else if p.text ≠ "" then ([SEvent.text p.text], p.text)
    else ([], "")
  (codeEvents ++ graphEvents ++ textStep.1, textStep.2)

/-- Process a part list left to right, concatenating events and text. -/
def processParts : List SPart → List SEvent × String
  | [] => ([], "")
  | p :: ps =>
    let r := processPart p
    let rest := processParts ps
    (r.1 ++ rest.1, r.2 ++ rest.2)

/-- The per-chunk branch on `candidates`: a nonempty candidate list is
processed part by part; otherwise a truthy `chunk.text` is streamed. -/
def chunkPartEvents (c : SChunk) : List SEvent × String :=
  match c.candidates with
  | some (cand :: _) =>
    match cand.parts with
    | some ps => processParts ps
    | none => ([], "")
  | _ =>
    if c.text ≠ "" then ([SEvent.text c.text], c.text) else ([], "")

/-- `chunk.groundingMetadata`, falling back to
`chunk.candidates?.[0]?.groundingMetadata`. -/
def chunkMetadata (c : SChunk) : Option GroundingMetadata :=
  match c.groundingMetadata with
  | some m => some m
  | none => (c.candidates.bind List.head?).bind SCandidate.groundingMetadata

/-- The normalized source list a chunk would emit, when nonempty: web
grounding chunks mapped to `(title || "Web Source", uri)` pairs. -/
def chunkSources (c : SChunk) : Option (List (String × String)) :=
  match chunkMetadata c with
  | none => none
  | some m =>
    match m.groundingChunks with
    | none => none
    | some gcs =>
      let sources := gcs.filterMap fun gc =>
        gc.web.map fun w => (if w.title = "" then "Web Source" else w.title, w.uri)
      if sources.isEmpty then none else some sources

/-- The grounding-metadata step of the `for await` body: nothing once
`sentMetadata` is set; otherwise the chunk's nonempty normalized source
list, if any, is written and the flag set. -/
def metadataStep (sent : Bool) (c : SChunk) : List SEvent × Bool :=
  if sent then ([], true)
  else
    match chunkSources c with
    | some s => ([SEvent.sources s], true)
    | none => ([], false)

/-- The `for await` body of `streamWithRetry`, folded over the chunk list.
State: the `sentMetadata` flag and accumulated `fullText`.  Returns the
events written and the final accumulated text. -/
def runChunks (sent : Bool) (acc : String) : List SChunk → List SEvent × String
  | [] => ([], acc)
  | c :: cs =>
    (( chunkPartEvents c).1 ++ (metadataStep sent c).1 ++
      (runChunks (metadataStep sent c).2 (acc ++ ( chunkPartEvents c).2) cs).1,
     (runChunks (metadataStep sent c).2 (acc ++ ( chunkPartEvents c).2) cs).2)

/-- `streamWithRetry(ai, model, contents, config, res)`: streams one upstream
response; a provider throw is caught and surfaces only as `success = false`,
with the partial `fullText` still returned. -/
def streamWithRetry (u : Upstream) : List SEvent × StreamResult :=
  ((runChunks false "" u.chunks).1,
   { text := (runChunks false "" u.chunks).2, success := !u.throws })

/-- `retryWithPro25`: writes the retry notice and relays the fallback stream
(calling `streamWithRetry`, not `streamChatWithRetry` — so an empty fallback
is never retried again). -/
def retryWithPro25 (fallback : Upstream) (fromModel : String) : List SEvent × StreamResult :=
  (SEvent.retryNotice "gemini-2.5-pro" fromModel :: (streamWithRetry fallback).1,
   (streamWithRetry fallback).2)

/-- The variants `streamChatWithRetry` will fall back from. -/
def retryEligible (model : String) : Bool :=
  model == "gemini-3-flash-preview" || model == "gemini-3-pro-preview"

/-- The outcome of one supervised turn: the events written, the final
`StreamResult`, and the upstream models called, in order. -/
structure SupervisorRun where
  events : List SEvent
  result : StreamResult
  calls : List String
deriving DecidableEq, Repr

/-- `streamChatWithRetry(ai, model, contents, config, res)`: stream once;
if the accumulated text is empty after trimming and the model is Flash 3 or
Pro 3, relay one fallback stream against `gemini-2.5-pro`. -/
def streamChatWithRetry (model : String) (first fallback : Upstream) : SupervisorRun :=
  if jsTrimEmpty (streamWithRetry first).2.text && retryEligible model then
    { events := (streamWithRetry first).1 ++ (retryWithPro25 fallback model).1,
      result := (retryWithPro25 fallback model).2,
      calls := [model, "gemini-2.5-pro"] }
  else
    { events := (streamWithRetry first).1, result := (streamWithRetry first).2,
      calls := [model] }

/-- The regular-chat tail of `streamChat` (`index.ts`): when nothing thrown
before the supervised stream, `streamChatWithRetry` runs and `done` is
written; an exception escaping to the surrounding `catch` (e.g. `getAI()`
throwing before the stream starts) writes a single `error` event instead. -/
def streamChatTurn (setupError : Option String) (model : String)
    (first fallback : Upstream) : List SEvent :=
  match setupError with
  | some msg => [SEvent.error msg]
  | none => (streamChatWithRetry model first fallback).events ++ [SEvent.done]

/-- Terminal events of the wire protocol. -/
def isTerminalEv : SEvent → Bool
  | SEvent.done => true
  | SEvent.error _ => true
  | _ => false

def isDoneEv : SEvent → Bool
  | SEvent.done => true
  | _ => false

def isErrorEv : SEvent → Bool
  | SEvent.error _ => true
  | _ => false

def isSourcesEv : SEvent → Bool
  | SEvent.sources _ => true
  | _ => false

/-- First chunk (if any) whose grounding metadata yields nonempty sources. -/
def firstSources (cs : List SChunk) : Option (List (String × String)) :=
  cs.findSome? chunkSources

/-! ## Intent Router (`determineModelFromIntent`, `index.ts`)

The classifier reply is either the reply text (`Except.ok`) or an upstream
error of any kind (`Except.error`, absorbed by the source's `catch`).  The
regex `gemini-3-(pro-image|flash|pro)-preview` is embedded as a leftmost
scan trying the three full identifiers in the source's alternation order at
each position.  The log-only `reasoning` string of `RouterDecision` is not
modelled; only the selected model identifier is. -/

/-- Try the three variant identifiers at one position, in alternation order
(`pro-image` before `pro`). -/
def routerMatchAt (cs : List Char) : Option String :=
  if "gemini-3-pro-image-preview".data.isPrefixOf cs then some "gemini-3-pro-image-preview"
  else if "gemini-3-flash-preview".data.isPrefixOf cs then some "gemini-3-flash-preview"
  else if "gemini-3-pro-preview".data.isPrefixOf cs then some "gemini-3-pro-preview"
  else none

/-- Leftmost regex match over the reply text. -/
def routerScan : List Char → Option String
  | [] => none
  | c :: cs =>
    match routerMatchAt (c :: cs) with
    | some m => some m
    | none => routerScan cs

/-- `text.match(/gemini-3-(pro-image|flash|pro)-preview/)`. -/
def findModelMatch (text : String) : Option String :=
  routerScan text.data

/-- The closed set of variant identifiers the router can return. -/
def routerVariants : List String :=
  ["gemini-3-pro-image-preview", "gemini-3-flash-preview", "gemini-3-pro-preview"]

/-- `determineModelFromIntent`: match the reply, default to
`gemini-3-pro-preview` on no match, and also on any upstream error (the
`catch` branch) — errors never escape. -/
def determineModelFromIntent (reply : Except String String) : String :=
  match reply with
  | Except.error _ => "gemini-3-pro-preview"
  | Except.ok text =>
    match findModelMatch text with
    | some m => m
    | none => "gemini-3-pro-preview"

/-! ## Attachment Resolver and History Compactor (`streamChat`, `index.ts`,
second deployed copy, lines 757–949) -/

/-- `isInlineDataSupported(mimeType)`. -/
def isInlineDataSupported (mimeType : String) : Bool :=
  strStartsWith mimeType "image/" || strStartsWith mimeType "video/" ||
  strStartsWith mimeType "audio/" || mimeType == "application/pdf"

/-- `getFileApiMimeType(mimeType)` — media types pass, all else coerces to
`text/plain`. -/
def getFileApiMimeType (mimeType : String) : String :=
  if strStartsWith mimeType "image/" || strStartsWith mimeType "video/" ||
      strStartsWith mimeType "audio/" || mimeType == "application/pdf" then
    mimeType
  else "text/plain"

/-- A client attachment (`ChatAttachment`).  Empty strings model absent
(falsy) fields. -/
structure ChatAttachment where
  fileUri : String := ""
  mimeType : String := ""
  data : String := ""
  name : String := ""
deriving DecidableEq, Repr

/-- A part of the upstream request. -/
inductive ReqPart
  | fileData (fileUri mimeType : String)
  | inlineBytes (mimeType data : String)
  | text (s : String)
deriving DecidableEq, Repr

/-- `Buffer.from(data, 'base64').toString('utf-8')`, modelled one byte per
character (multi-byte UTF-8 grouping is not modelled; no claim depends on
the decoded text's exact characters). -/
def b64DecodeToString (s : String) : String :=
  String.mk ((b64Decode s).map fun b => Char.ofNat (b % 256))

/-- The attachment `forEach` body: File-API reference when `fileUri` is
truthy, inline bytes for the four inlineable media families, otherwise a
fenced text part labeled with the file name.  No size check appears in any
branch. -/
def resolveAttachment (att : ChatAttachment) : List ReqPart :=
  if att.fileUri ≠ "" then
    [ReqPart.fileData att.fileUri (getFileApiMimeType att.mimeType)]
  else if isInlineDataSupported att.mimeType then
    [ReqPart.inlineBytes att.mimeType att.data]
  else
    [ReqPart.text
      ((if att.name ≠ "" then "File: " ++ att.name ++ "\n" else "Attached File:\n") ++
        "```" ++ att.mimeType ++ "\n" ++ b64DecodeToString att.data ++ "\n```\n")]

/-- The message parts built for the new user turn: resolved attachments,
then the message text when truthy and not whitespace-only. -/
def buildParts (attachments : List ChatAttachment) (newMessage : String) : List ReqPart :=
  attachments.flatMap resolveAttachment ++
    (if jsTrimEmpty newMessage then [] else [ReqPart.text newMessage])

/-- One history turn as sent by the client. -/
structure HistoryMessage where
  role : String := ""
  text : String := ""
deriving DecidableEq, Repr

/-- `history.slice(-n)`: the last `n` elements (all of them when fewer). -/
def jsSliceLast (n : Nat) (l : List HistoryMessage) : List HistoryMessage :=
  l.drop (l.length - n)

/-- The `limitedHistory` policy ternary of `streamChat`: last 1 turn for the
image-generation variant, last 2 for research, last 50 for Pro 3, the full
history otherwise. -/
def limitedHistory (selectedModelId : String) (history : List HistoryMessage) :
    List HistoryMessage :=
  if selectedModelId == "gemini-2.5-flash-image" then jsSliceLast 1 history
  else if selectedModelId == "research" then jsSliceLast 2 history
  else if selectedModelId == "gemini-3-pro-preview" then jsSliceLast 50 history
  else history

/-! ## Dual-Sink Uploader (`dualUpload`, `utils/image.ts`) and its caller
(`handleProImageStream`, `handlers/pro-image.ts`)

The two concurrent writes are parameters giving each write's outcome.
`Promise.all` settles to the pair when both succeed and rejects with a
failure as soon as either write fails (the rejection reason is whichever
failure settles it; its exact choice is irrelevant to the claims). -/

/-- `dualUpload(ai, base64Data, mimeType, userId)` — resolves to
`(storageUrl, fileUri)` only when both writes succeed; any single failure
rejects the whole call. -/
def dualUpload (storageWrite fileApiWrite : Except String String) :
    Except String (String × String) :=
  match storageWrite, fileApiWrite with
  | Except.ok storageUrl, Except.ok fileUri => Except.ok (storageUrl, fileUri)
  | Except.error e, _ => Except.error e
  | _, Except.error e => Except.error e

/-- The `image` event payload written by `handleProImageStream` for a
generated image. -/
structure ImageEventPayload where
  mimeType : String
  data : String
  storageUrl : Option String
  fileUri : Option String
  aspect : String
deriving DecidableEq, Repr

/-- The inline-image branch of `handleProImageStream`: on dual-upload
success the event carries both handles; on failure (the `catch`) it falls
back to raw bytes and aspect ratio only. -/
def proImageEvent (mimeType data : String)
    (storageWrite fileApiWrite : Except String String) : ImageEventPayload :=
  let aspect := detectAspectRatio data
  match dualUpload storageWrite fileApiWrite with
  | Except.ok (u, f) =>
    { mimeType := mimeType, data := data, storageUrl := some u, fileUri := some f,
      aspect := aspect }
  | Except.error _ =>
    { mimeType := mimeType, data := data, storageUrl := none, fileUri := none,
      aspect := aspect }

/-! ## Session Cleanup Reactor (`handlers/chat-cleanup.ts`) -/

/-- Hex digit value (code points compared numerically: 48–57 digit, 65–70
upper, 97–102 lower). -/
def hexVal (c : Char) : Option Nat :=
  let n := c.toNat
  if 48 ≤ n ∧ n ≤ 57 then some (n - 48)
  else if 65 ≤ n ∧ n ≤ 70 then some (n - 55)
  else if 97 ≤ n ∧ n ≤ 102 then some (n - 87)
  else none

/-- `decodeURIComponent`: percent-decoding, `none` on a malformed `%`
sequence (the `URIError` path, which the source's `catch` turns into
`null`).  Decoded bytes are kept one per character; UTF-8 regrouping of
multi-byte sequences is not modelled and no claim depends on it. -/
def percentDecode : List Char → Option (List Char)
  | [] => some []
  | '%' :: h1 :: h2 :: rest =>
    match hexVal h1, hexVal h2 with
    | some a, some b => (percentDecode rest).map (Char.ofNat (16 * a + b) :: ·)
    | _, _ => none
  | '%' :: _ => none
  | c :: rest => (percentDecode rest).map (c :: ·)

/-- Split a character list at the first occurrence of an infix, returning
the parts before and after it; `none` when the infix does not occur. -/
def splitFirstInfix (sep : List Char) : List Char → Option (List Char × List Char)
  | [] => if sep.isEmpty then some ([], []) else none
  | c :: cs =>
    if sep.isPrefixOf (c :: cs) then some ([], (c :: cs).drop sep.length)
    else
      match splitFirstInfix sep cs with
      | some (pre, post) => some (c :: pre, post)
      | none => none

/-- Substring containment over strings. -/
def strContains (s pat : String) : Bool :=
  (splitFirstInfix pat.data s.data).isSome

/-- Fuel-driven worker for `splitOnChars`; structural recursion on the fuel
keeps it kernel-reducible.  With fuel at least the list length the fuel
never runs out (a consumed separator shortens the list by at least one). -/
def splitOnCharsFuel (sep : List Char) : Nat → List Char → List (List Char)
  | _, [] => [[]]
  | 0, cs => [cs]
  | fuel + 1, c :: cs =>
    if sep.isPrefixOf (c :: cs) ∧ sep ≠ [] then
      [] :: splitOnCharsFuel sep fuel ((c :: cs).drop sep.length)
    else
      match splitOnCharsFuel sep fuel cs with
      | g :: gs => (c :: g) :: gs
      | [] => [[c]]

/-- `s.split(sep)` for a nonempty separator, over character lists (leftmost,
non-overlapping; a trailing separator yields a trailing empty part). -/
def splitOnChars (sep : List Char) (cs : List Char) : List (List Char) :=
  splitOnCharsFuel sep cs.length cs

/-- `parts.join('/')` over character lists. -/
def joinSlash : List (List Char) → List Char
  | [] => []
  | [g] => g
  | g :: gs => g ++ '/' :: joinSlash gs

/-- `new URL(u).pathname`, modelled for absolute `scheme://host/path?query`
URLs: requires a scheme and `://`; the pathname is the segment from the
first `/` after the host up to `?` or `#` (or `/` when absent); anything
without `://` is a parse failure (`new URL` throws, caught → `null`). -/
def pathnameOf (u : String) : Option String :=
  match splitFirstInfix "://".data u.data with
  | some (scheme, rest) =>
    if scheme.isEmpty then none
    else
      let host := rest.takeWhile fun c => c ≠ '/' ∧ c ≠ '?' ∧ c ≠ '#'
      if host.isEmpty then none
      else
        match rest.drop host.length with
        | '/' :: tail => some (String.mk ('/' :: tail.takeWhile fun c => c ≠ '?' ∧ c ≠ '#'))
        | _ => some "/"
  | none => none

/-- `extractStoragePath(storageUrl)` — supports the `/o/`-encoded convention
(`/v0/b/bucket/o/encodedPath`) and the signed `/bucket/path` convention,
URL-decoding either; `null` on parse or decode failure. -/
def extractStoragePath (storageUrl : String) : Option String :=
  match pathnameOf storageUrl with
  | none => none
  | some pathname =>
    if strContains pathname "/o/" then
      let encodedPath := (splitOnChars "/o/".data pathname.data).getD 1 []
      (percentDecode encodedPath).map String.mk
    else
      let pathParts := splitOnChars "/".data pathname.data
      if pathParts.length ≥ 3 then
        (percentDecode (joinSlash (pathParts.drop 2))).map String.mk
      else none

/-- A persisted attachment reference (`storageUrl = ""` models absent). -/
structure CAttachment where
  storageUrl : String := ""
deriving DecidableEq, Repr

/-- A persisted message record of the deleted conversation. -/
structure CMessage where
  attachments : List CAttachment := []
deriving DecidableEq, Repr

/-- The collection pass of `onChatDeleted`: one storage path per attachment
whose `storageUrl` is truthy and extractable. -/
def storagePathsToDelete (msgs : List CMessage) : List String :=
  msgs.flatMap fun m =>
    m.attachments.filterMap fun a =>
      if a.storageUrl ≠ "" then extractStoragePath a.storageUrl else none

/-- Outcome of one `storage.file(path).delete()` call. -/
inductive DeleteOutcome
  | ok
  | missing
  | failure (e : String)
deriving DecidableEq, Repr

/-- The per-path `try`/`catch`: a 404 (`missing`) is swallowed silently, any
other failure is logged; neither rethrows. -/
def deleteLogsError : DeleteOutcome → Bool
  | DeleteOutcome.failure _ => true
  | _ => false

/-- What one cleanup run does, given each path's delete outcome. -/
structure CleanupRun where
  storageDeleteCalls : List String
  loggedFailures : List String
  messageDeleteCount : Nat
deriving DecidableEq, Repr

/-- `onChatDeleted`: every collected path gets exactly one delete call (all
issued before any outcome is awaited, so no failure stops the others), 404s
are ignored, other failures are logged, and every message record is
deleted. -/
def runCleanup (msgs : List CMessage) (outcome : String → DeleteOutcome) : CleanupRun :=
  let paths := storagePathsToDelete msgs
  { storageDeleteCalls := paths
    loggedFailures := paths.filter fun p => deleteLogsError (outcome p)
    messageDeleteCount := msgs.length }

/-! ## Derived notions and concrete inputs used by the theorems -/

/-- The text a chunk list contributes to `fullText`: per chunk, the
non-thought part texts (or the truthy top-level chunk text). -/
def textOfChunks : List SChunk → String
  | [] => ""
  | c :: cs => (chunkPartEvents c).2 ++ textOfChunks cs

/-- An upstream stream delivering nothing and completing normally. -/
def emptyStream : Upstream := { chunks := [], throws := false }

/-- An upstream stream delivering nothing and then throwing. -/
def throwingStream : Upstream := { chunks := [], throws := true }

/-- A chunk carrying only grounding metadata (one web source), no text. -/
def sourcesOnlyChunk : SChunk :=
  { candidates := none, text := "",
    groundingMetadata :=
      some (GroundingMetadata.mk
        (some [GroundingChunk.mk
          (some (GroundingWeb.mk "Example" "https://example.com"))])) }

/-- A stream whose sole chunk yields a `sources` event and no text. -/
def sourcesOnlyStream : Upstream := { chunks := [sourcesOnlyChunk], throws := false }

/-- An inline payload of 10485761 characters — above the 10 MB `inlineData`
ceiling the source itself cites in its comment. -/
def bigInlineData : String := String.mk (List.replicate 10485761 'A')

/-- An oversized media attachment with no remote handle. -/
def bigAttachment : ChatAttachment :=
  { fileUri := "", mimeType := "image/png", data := bigInlineData, name := "big.png" }

/-- An `/o/`-convention display URL. -/
def demoUrlO : String :=
  "https://firebasestorage.googleapis.com/v0/b/my-bucket/o/users%2Fu1%2Fattachments%2Fphoto%201.png?alt=media"

/-- A signed `/bucket/path`-convention display URL. -/
def demoUrlSigned : String :=
  "https://storage.googleapis.com/my-bucket/users/u1/generated/img%20final.png?GoogleAccessId=x"

/-- Two messages, each referencing one storage path via a different URL
convention. -/
def demoMessages : List CMessage :=
  [CMessage.mk [CAttachment.mk demoUrlO], CMessage.mk [CAttachment.mk demoUrlSigned]]

/-- A delete-outcome assignment: the first demo path is already missing, the
second fails with a permission error. -/
def demoOutcome (p : String) : DeleteOutcome :=
  if p = "users/u1/attachments/photo 1.png" then DeleteOutcome.missing
  else DeleteOutcome.failure "permission denied"

/-! ## Helper lemmas -/

/-- Events written for a single part are only image, graph, thinking or
text events. -/
lemma mem_processPart {p : SPart} {e : SEvent} (he : e ∈ (processPart p).1) :
    (∃ m d, e = SEvent.image m d) ∨ (∃ m d a, e = SEvent.graph m d a) ∨
    (∃ s, e = SEvent.thinking s) ∨ (∃ s, e = SEvent.text s) := by
  unfold processPart at he
  simp only [List.mem_append] at he
  rcases he with (h | h) | h
  · split at h
    · split at h
      · simp only [List.mem_singleton] at h
        exact Or.inl ⟨_, _, h⟩
      · simp at h
    · simp at h
  · split at h
    · simp only [List.mem_singleton] at h
      exact Or.inr (Or.inl ⟨_, _, _, h⟩)
    · simp at h
  · split at h
    · simp only [List.mem_singleton] at h
      exact Or.inr (Or.inr (Or.inl ⟨_, h⟩))
    · split at h
      · simp only [List.mem_singleton] at h
        exact Or.inr (Or.inr (Or.inr ⟨_, h⟩))
      · simp at h

/-- Events written for a part list are only image, graph, thinking or text
events. -/
lemma mem_processParts {ps : List SPart} {e : SEvent} (he : e ∈ (processParts ps).1) :
    (∃ m d, e = SEvent.image m d) ∨ (∃ m d a, e = SEvent.graph m d a) ∨
    (∃ s, e = SEvent.thinking s) ∨ (∃ s, e = SEvent.text s) := by
  induction ps with
  | nil => simp [processParts] at he
  | cons p ps ih =>
    simp only [processParts, List.mem_append] at he
    rcases he with h | h
    · exact mem_processPart h
    · exact ih h

/-- The per-chunk part handling writes only image, graph, thinking or text
events. -/
lemma mem_chunkPartEvents {c : SChunk} {e : SEvent} (he : e ∈ (chunkPartEvents c).1) :
    (∃ m d, e = SEvent.image m d) ∨ (∃ m d a, e = SEvent.graph m d a) ∨
    (∃ s, e = SEvent.thinking s) ∨ (∃ s, e = SEvent.text s) := by
  unfold chunkPartEvents at he
  split at he
  · split at he
    · exact mem_processParts he
    · simp at he
  · split at he
    · simp only [List.mem_singleton] at he
      exact Or.inr (Or.inr (Or.inr ⟨_, he⟩))
    · simp at he

/-- Part-level events are never terminal and never `sources`. -/
lemma chunkPartEvents_plain {c : SChunk} {e : SEvent} (he : e ∈ (chunkPartEvents c).1) :
    isTerminalEv e = false ∧ isSourcesEv e = false := by
  rcases mem_chunkPartEvents he with ⟨m, d, rfl⟩ | ⟨m, d, a, rfl⟩ | ⟨s, rfl⟩ | ⟨s, rfl⟩ <;>
    exact ⟨rfl, rfl⟩

/-- The metadata step writes at most a `sources` event, never a terminal
event. -/
lemma mem_metadataStep {sent : Bool} {c : SChunk} {e : SEvent}
    (he : e ∈ (metadataStep sent c).1) : e = SEvent.sources ((chunkSources c).getD []) := by
  unfold metadataStep at he
  split at he
  · simp at he
  · split at he
    · rename_i s hs
      simp only [List.mem_singleton] at he
      simp [he, hs]
    · simp at he

/-- Every event written by the multiplexer loop is a part-level event or a
`sources` event — never `done`, `error` or a retry notice. -/
lemma mem_runChunks {cs : List SChunk} :
    ∀ {sent : Bool} {acc : String} {e : SEvent}, e ∈ (runChunks sent acc cs).1 →
      isTerminalEv e = false := by
  induction cs with
  | nil => intro sent acc e he; simp [runChunks] at he
  | cons c cs ih =>
    intro sent acc e he
    simp only [runChunks, List.mem_append] at he
    rcases he with (h | h) | h
    · exact (chunkPartEvents_plain h).1
    · rw [mem_metadataStep h]; rfl
    · exact ih h

/-- `streamWithRetry` never writes a terminal event itself. -/
lemma streamWithRetry_no_terminal {u : Upstream} {e : SEvent}
    (he : e ∈ (streamWithRetry u).1) : isTerminalEv e = false :=
  mem_runChunks he

/-- The Retry Supervisor never writes a terminal event itself. -/
lemma supervisor_no_terminal {model : String} {first fallback : Upstream} {e : SEvent}
    (he : e ∈ (streamChatWithRetry model first fallback).events) :
    isTerminalEv e = false := by
  unfold streamChatWithRetry at he
  split at he <;> simp only [List.mem_append, retryWithPro25, List.mem_cons] at he
  · rcases he with h | h | h
    · exact streamWithRetry_no_terminal h
    · subst h; rfl
    · exact streamWithRetry_no_terminal h
  · exact streamWithRetry_no_terminal he

/-- Part-level events contain no `sources` event. -/
lemma chunkPartEvents_sources_nil (c : SChunk) :
    (chunkPartEvents c).1.filter isSourcesEv = [] := by
  refine List.filter_eq_nil_iff.mpr ?_
  intro e he
  simp [(chunkPartEvents_plain he).2]

/-- Sources filter of the multiplexer loop once the flag is set: nothing. -/
lemma runChunks_sources_sent (cs : List SChunk) :
    ∀ acc : String, (runChunks true acc cs).1.filter isSourcesEv = [] := by
  induction cs with
  | nil => intro acc; simp [runChunks]
  | cons c cs ih =>
    intro acc
    have hms : metadataStep true c = ([], true) := rfl
    simp only [runChunks, List.filter_append, hms]
    rw [ih]
    simp [chunkPartEvents_sources_nil c]

/-- Sources filter of the multiplexer loop with the flag unset: exactly the
first chunk-level nonempty source list, if any. -/
lemma runChunks_sources_unsent (cs : List SChunk) :
    ∀ acc : String, (runChunks false acc cs).1.filter isSourcesEv =
      (match firstSources cs with
       | some s => [SEvent.sources s]
       | none => []) := by
  induction cs with
  | nil => intro acc; simp [runChunks, firstSources]
  | cons c cs ih =>
    intro acc
    rcases hc : chunkSources c with _ | s
    · have hms : metadataStep false c = ([], false) := by simp [metadataStep, hc]
      simp only [runChunks, List.filter_append, hms, chunkPartEvents_sources_nil c]
      rw [ih]
      simp [firstSources, List.findSome?_cons, hc]
    · have hms : metadataStep false c = ([SEvent.sources s], true) := by
        simp [metadataStep, hc]
      simp only [runChunks, List.filter_append, hms, chunkPartEvents_sources_nil c]
      rw [runChunks_sources_sent]
      simp [firstSources, List.findSome?_cons, hc, isSourcesEv]

/-- The accumulated text of the multiplexer loop is the starting text plus
the chunk texts. -/
lemma runChunks_text (cs : List SChunk) :
    ∀ (sent : Bool) (acc : String),
      (runChunks sent acc cs).2 = acc ++ textOfChunks cs := by
  induction cs with
  | nil => intro sent acc; simp [runChunks, textOfChunks]
  | cons c cs ih =>
    intro sent acc
    simp only [runChunks, textOfChunks]
    rw [ih]
    exact String.append_assoc _ _ _

/-- The router scan only ever produces the three closed identifiers. -/
lemma routerScan_mem {cs : List Char} {m : String} (h : routerScan cs = some m) :
    m ∈ routerVariants := by
  induction cs with
  | nil => simp [routerScan] at h
  | cons c cs ih =>
    simp only [routerScan] at h
    rcases hm : routerMatchAt (c :: cs) with _ | v
    · rw [hm] at h; exact ih h
    · rw [hm] at h
      simp only [Option.some.injEq] at h
      subst h
      unfold routerMatchAt at hm
      split at hm
      · simp only [Option.some.injEq] at hm; subst hm; simp [routerVariants]
      · split at hm
        · simp only [Option.some.injEq] at hm; subst hm; simp [routerVariants]
        · split at hm
          · simp only [Option.some.injEq] at hm; subst hm; simp [routerVariants]
          · simp at hm

/-- The ratio-bucket chain only produces the seven closed ratio strings. -/
lemma aspectBuckets_mem (r : ℚ) : aspectBuckets r ∈ ratioStrings := by
  unfold aspectBuckets
  split_ifs <;> simp [ratioStrings]

/-- `calculateAspectRatio` only produces the seven closed ratio strings. -/
lemma calculateAspectRatio_mem (w h : Nat) : calculateAspectRatio w h ∈ ratioStrings := by
  unfold calculateAspectRatio
  split_ifs
  · simp [ratioStrings]
  · simp [ratioStrings]
  · exact aspectBuckets_mem _

/-- Inline-media resolution: no remote handle plus an inlineable MIME family
yields exactly the untouched inline-bytes part. -/
lemma resolveAttachment_inline (att : ChatAttachment) (h1 : att.fileUri = "")
    (h2 : isInlineDataSupported att.mimeType = true) :
    resolveAttachment att = [ReqPart.inlineBytes att.mimeType att.data] := by
  unfold resolveAttachment
  rw [h1]
  simp [h2]

/-- A single multiplexed stream emits at most one `sources` event. -/
lemma stream_sources_le_one (u : Upstream) :
    ((streamWithRetry u).1.filter isSourcesEv).length ≤ 1 := by
  have h := runChunks_sources_unsent u.chunks ""
  have he : (streamWithRetry u).1 = (runChunks false "" u.chunks).1 := rfl
  rw [he, h]
  rcases firstSources u.chunks <;> simp

/-! ## Claim theorems -/

/-- C1: for every upstream response sequence, `streamChatWithRetry` issues at
most one fallback call; the second call happens exactly when the first
stream's accumulated non-thinking text is empty or whitespace-only and the
requested variant is `gemini-3-flash-preview` or `gemini-3-pro-preview`; the
fallback always targets `gemini-2.5-pro`; other variants pass through with
no retry (and the fallback path calls plain `streamWithRetry`, so an empty
fallback is never retried again — the call list is capped at two
unconditionally). -/
theorem retry_supervisor_at_most_one_fallback (model : String) (first fallback : Upstream) :
    ((streamChatWithRetry model first fallback).calls = [model] ∨
      (streamChatWithRetry model first fallback).calls = [model, "gemini-2.5-pro"]) ∧
    (streamChatWithRetry model first fallback).calls.length ≤ 2 ∧
    ((streamChatWithRetry model first fallback).calls.length = 2 ↔
      (jsTrimEmpty (streamWithRetry first).2.text = true ∧
        (model = "gemini-3-flash-preview" ∨ model = "gemini-3-pro-preview"))) ∧
    (model ≠ "gemini-3-flash-preview" → model ≠ "gemini-3-pro-preview" →
      streamChatWithRetry model first fallback =
        { events := (streamWithRetry first).1, result := (streamWithRetry first).2,
          calls := [model] }) := by
  unfold streamChatWithRetry
  by_cases hc : (jsTrimEmpty (streamWithRetry first).2.text && retryEligible model) = true
  · rw [if_pos hc]
    rw [Bool.and_eq_true] at hc
    obtain ⟨h1, h2⟩ := hc
    rw [retryEligible, Bool.or_eq_true, beq_iff_eq, beq_iff_eq] at h2
    refine ⟨Or.inr rfl, by simp, by simp [h1, h2], ?_⟩
    intro hn1 hn2
    rcases h2 with h | h
    · exact absurd h hn1
    · exact absurd h hn2
  · rw [if_neg hc]
    refine ⟨Or.inl rfl, by simp, ?_, fun _ _ => rfl⟩
    simp only [List.length_cons, List.length_nil]
    constructor
    · intro h; omega
    · rintro ⟨ha, hb⟩
      have hr : retryEligible model = true := by
        rw [retryEligible, Bool.or_eq_true, beq_iff_eq, beq_iff_eq]; exact hb
      rw [Bool.and_eq_true] at hc
      exact absurd ⟨ha, hr⟩ hc

/-- Witness for C1: a variant outside the retry set passes through
untouched. -/
theorem retry_supervisor_witness :
    streamChatWithRetry "research" emptyStream emptyStream =
      { events := (streamWithRetry emptyStream).1, result := (streamWithRetry emptyStream).2,
        calls := ["research"] } :=
  (retry_supervisor_at_most_one_fallback "research" emptyStream emptyStream).2.2.2
    (by decide) (by decide)

/-- C2 counterexample: the provider throws during a chat streaming call
(`throwingStream.throws = true`), yet the turn's event stream is exactly
`[done]` — no `error` event is emitted and `done` is emitted, contradicting
the claim. -/
theorem upstream_throw_swallowed_counterexample :
    throwingStream.throws = true ∧
    streamChatTurn none "gemini-2.5-pro" throwingStream throwingStream = [SEvent.done] ∧
    (streamChatTurn none "gemini-2.5-pro" throwingStream throwingStream).countP isErrorEv
      = 0 := by
  refine ⟨rfl, by decide, by decide⟩

/-- C2 amended: a provider throw inside the supervised chat stream is
absorbed by `streamWithRetry` (it surfaces only as `success = false` with
the partial text kept) and the turn still terminates with exactly one `done`
event and no `error` event; exactly one terminal `error` event — and no
`done` — is written only when an exception escapes to `streamChat`'s
top-level catch (a setup failure before the supervised stream). -/
theorem upstream_error_terminal_behavior (se : Option String) (model : String)
    (first fallback : Upstream) :
    (∀ m, se = some m → streamChatTurn se model first fallback = [SEvent.error m]) ∧
    (se = none →
      (streamChatTurn se model first fallback).countP isErrorEv = 0 ∧
      (streamChatTurn se model first fallback).countP isDoneEv = 1 ∧
      (streamChatTurn se model first fallback).getLast? = some SEvent.done ∧
      (streamWithRetry first).2.success = !first.throws) := by
  constructor
  · intro m hm; subst hm; rfl
  · intro hn; subst hn
    have hterm : ∀ p : SEvent → Bool, (∀ e, p e = true → isTerminalEv e = true) →
        (streamChatWithRetry model first fallback).events.countP p = 0 := by
      intro p hp
      rw [List.countP_eq_zero]
      intro e he hpe
      have h1 := supervisor_no_terminal he
      rw [hp e hpe] at h1
      exact Bool.noConfusion h1
    refine ⟨?_, ?_, ?_, rfl⟩
    · show ((streamChatWithRetry model first fallback).events ++ [SEvent.done]).countP
        isErrorEv = 0
      rw [List.countP_append, hterm isErrorEv ?he]
      · rfl
      · intro e hpe; cases e <;> simp_all [isErrorEv, isTerminalEv]
    · show ((streamChatWithRetry model first fallback).events ++ [SEvent.done]).countP
        isDoneEv = 1
      rw [List.countP_append, hterm isDoneEv ?hd]
      · rfl
      · intro e hpe; cases e <;> simp_all [isDoneEv, isTerminalEv]
    · show ((streamChatWithRetry model first fallback).events ++ [SEvent.done]).getLast?
        = some SEvent.done
      rw [List.getLast?_concat]

/-- Witness for C2: both branches of the amended statement at concrete
inputs — a setup failure gives the single error event; a normal turn over an
empty (even throwing) stream gives exactly one `done`. -/
theorem upstream_error_terminal_witness :
    streamChatTurn (some "boom") "m" emptyStream emptyStream = [SEvent.error "boom"] ∧
    (streamChatTurn none "m" throwingStream emptyStream).countP isDoneEv = 1 :=
  ⟨(upstream_error_terminal_behavior (some "boom") "m" emptyStream emptyStream).1 "boom" rfl,
   ((upstream_error_terminal_behavior none "m" throwingStream emptyStream).2 rfl).2.1⟩

/-- C3: a fragment flagged as a thought with non-empty text produces a
`thinking` event and contributes nothing to the accumulated text; the
appended text is exactly the text of non-thought fragments; and the
`StreamResult` text the Retry Supervisor inspects is precisely the chunks'
non-thinking text. -/
theorem thinking_not_accumulated (p : SPart) (u : Upstream) :
    (p.thought = true → p.text ≠ "" →
      SEvent.thinking p.text ∈ (processPart p).1 ∧ (processPart p).2 = "") ∧
    ((processPart p).2 = if p.thought = false ∧ p.text ≠ "" then p.text else "") ∧
    (streamWithRetry u).2.text = textOfChunks u.chunks := by
  refine ⟨?_, ?_, ?_⟩
  · intro ht hx
    unfold processPart
    simp [ht, hx]
  · by_cases ht : p.thought = true <;> by_cases hx : p.text = "" <;>
      simp [processPart, ht, hx]
  · have he : (streamWithRetry u).2.text = (runChunks false "" u.chunks).2 := rfl
    rw [he, runChunks_text]
    simp

/-- Witness for C3: a concrete thought fragment is surfaced as `thinking`
and appends nothing. -/
theorem thinking_witness :
    SEvent.thinking "pondering" ∈ (processPart (SPart.mk true "pondering" false none none)).1 ∧
    (processPart (SPart.mk true "pondering" false none none)).2 = "" :=
  (thinking_not_accumulated (SPart.mk true "pondering" false none none) emptyStream).1
    rfl (by decide)

/-- C4 counterexample: a first stream whose only chunk carries grounding
metadata but no text triggers the fallback (its text is empty), the fallback
stream carries metadata again, and the turn contains two `sources` events —
contradicting "at most one sources event per turn including the relayed
fallback". -/
theorem duplicate_sources_counterexample :
    ((streamChatWithRetry "gemini-3-flash-preview" sourcesOnlyStream
      sourcesOnlyStream).events.filter isSourcesEv).length = 2 := by
  decide

/-- C4 amended: within a single multiplexed stream at most one `sources`
event is emitted and the first chunk producing a nonempty source list wins;
the `sentMetadata` flag is per-stream, so a turn that relays a fallback
stream is bounded by two `sources` events (one per stream), not one. -/
theorem sources_first_wins_per_stream (u : Upstream) (model : String)
    (first fallback : Upstream) :
    ((streamWithRetry u).1.filter isSourcesEv =
      match firstSources u.chunks with
      | some s => [SEvent.sources s]
      | none => []) ∧
    ((streamWithRetry u).1.filter isSourcesEv).length ≤ 1 ∧
    ((streamChatWithRetry model first fallback).events.filter isSourcesEv).length ≤ 2 := by
  refine ⟨runChunks_sources_unsent u.chunks "", stream_sources_le_one u, ?_⟩
  unfold streamChatWithRetry
  split
  · simp only [List.filter_append, List.length_append, retryWithPro25]
    have hr : List.filter isSourcesEv
        (SEvent.retryNotice "gemini-2.5-pro" model :: (streamWithRetry fallback).1) =
        List.filter isSourcesEv (streamWithRetry fallback).1 := by
      simp [isSourcesEv]
    rw [hr]
    have g1 := stream_sources_le_one first
    have g2 := stream_sources_le_one fallback
    omega
  · exact le_trans (stream_sources_le_one first) (by omega)

/-- C5: the Intent Router returns only the three closed identifiers; on an
upstream error of any kind, and on no match, it deterministically returns
`gemini-3-pro-preview` without surfacing an error; and the alternation is
order-sensitive — `pro-image` wins where it occurs. -/
theorem router_closure (reply : Except String String) :
    determineModelFromIntent reply ∈ routerVariants ∧
    (∀ e, reply = Except.error e → determineModelFromIntent reply = "gemini-3-pro-preview") ∧
    (∀ t, reply = Except.ok t → findModelMatch t = none →
      determineModelFromIntent reply = "gemini-3-pro-preview") ∧
    findModelMatch "Answer: gemini-3-pro-image-preview (image request)" =
      some "gemini-3-pro-image-preview" := by
  refine ⟨?_, ?_, ?_, by decide⟩
  · unfold determineModelFromIntent
    cases reply with
    | error e => simp [routerVariants]
    | ok t =>
      rcases hm : findModelMatch t with _ | m
      · simp [hm, routerVariants]
      · have hmem := routerScan_mem hm
        simpa [hm] using hmem
  · intro e he; subst he; rfl
  · intro t ht hm
    subst ht
    simp [determineModelFromIntent, hm]

/-- Witness for C5: an upstream error and a matchless reply both degrade to
the designated default. -/
theorem router_witness :
    determineModelFromIntent (Except.error "ECONNRESET") = "gemini-3-pro-preview" ∧
    determineModelFromIntent (Except.ok "no model mentioned") = "gemini-3-pro-preview" :=
  ⟨(router_closure (Except.error "ECONNRESET")).2.1 "ECONNRESET" rfl,
   (router_closure (Except.ok "no model mentioned")).2.2.1 "no model mentioned" rfl
     (by decide)⟩

/-- C6 counterexample: the storage write fails while the provider write
succeeds, yet `dualUpload` rejects as a whole and the image event carries
neither handle — the surviving `fileUri` is *not* returned, contradicting
the claim. -/
theorem dual_sink_partial_failure_counterexample :
    dualUpload (Except.error "storage write failed") (Except.ok "files/abc123") =
      Except.error "storage write failed" ∧
    (proImageEvent "image/png" "" (Except.error "storage write failed")
        (Except.ok "files/abc123")).fileUri = none ∧
    (proImageEvent "image/png" "" (Except.error "storage write failed")
        (Except.ok "files/abc123")).storageUrl = none :=
  ⟨rfl, rfl, rfl⟩

/-- C6 amended: the Dual-Sink upload is all-or-nothing — both handles are
returned when both writes succeed, and if either write fails the whole call
rejects and the caller's fallback image event carries only raw bytes and
aspect ratio, never a surviving partial handle. -/
theorem dual_sink_all_or_nothing (mime data : String) (sw fw : Except String String) :
    (∀ u f, sw = Except.ok u → fw = Except.ok f →
      proImageEvent mime data sw fw =
        { mimeType := mime, data := data, storageUrl := some u, fileUri := some f,
          aspect := detectAspectRatio data }) ∧
    ((sw.isOk = false ∨ fw.isOk = false) →
      (proImageEvent mime data sw fw).storageUrl = none ∧
      (proImageEvent mime data sw fw).fileUri = none ∧
      (proImageEvent mime data sw fw).data = data ∧
      (proImageEvent mime data sw fw).aspect = detectAspectRatio data) := by
  constructor
  · intro u f hu hf; subst hu; subst hf; rfl
  · intro h
    cases sw with
    | error e => cases fw <;> exact ⟨rfl, rfl, rfl, rfl⟩
    | ok u =>
      cases fw with
      | error e => exact ⟨rfl, rfl, rfl, rfl⟩
      | ok f =>
        rcases h with h | h <;> simp [Except.isOk, Except.toBool] at h

/-- Witness for C6: both-success carries both handles; a single failure at a
concrete input carries neither. -/
theorem dual_sink_witness :
    proImageEvent "image/png" "" (Except.ok "https://storage.example/u")
        (Except.ok "files/f") =
      { mimeType := "image/png", data := "", storageUrl := some "https://storage.example/u",
        fileUri := some "files/f", aspect := detectAspectRatio "" } ∧
    (proImageEvent "image/png" "" (Except.error "x") (Except.ok "files/f")).storageUrl
      = none :=
  ⟨(dual_sink_all_or_nothing "image/png" "" (Except.ok "https://storage.example/u")
      (Except.ok "files/f")).1 "https://storage.example/u" "files/f" rfl rfl,
   ((dual_sink_all_or_nothing "image/png" "" (Except.error "x")
      (Except.ok "files/f")).2 (Or.inl rfl)).1⟩

/-- C7 counterexample: an inline media attachment far above the 10 MB
`inlineData` ceiling the source's own comment cites is passed through as an
inline-bytes part, byte for byte — the request is not rejected and nothing
is truncated, contradicting the claimed ceiling enforcement. -/
theorem inline_ceiling_counterexample :
    bigInlineData.length = 10485761 ∧
    resolveAttachment bigAttachment = [ReqPart.inlineBytes "image/png" bigInlineData] := by
  constructor
  · have hlen : bigInlineData.length = (List.replicate 10485761 'A').length := rfl
    rw [hlen, List.length_replicate]
  · exact resolveAttachment_inline bigAttachment rfl (by decide)

/-- C7 amended: an attachment with only inline bytes and an inlineable media
MIME type always becomes an inline-bytes part carrying the payload
unchanged; no per-call payload ceiling is enforced at this boundary — there
is no size-dependent rejection, truncation or error path. -/
theorem inline_passthrough (att : ChatAttachment) :
    att.fileUri = "" → isInlineDataSupported att.mimeType = true →
    resolveAttachment att = [ReqPart.inlineBytes att.mimeType att.data] :=
  fun h1 h2 => resolveAttachment_inline att h1 h2

/-- Witness for C7: a small concrete PDF attachment resolves to its inline
part. -/
theorem inline_passthrough_witness :
    resolveAttachment (ChatAttachment.mk "" "application/pdf" "QUJD" "doc.pdf") =
      [ReqPart.inlineBytes "application/pdf" "QUJD"] :=
  inline_passthrough (ChatAttachment.mk "" "application/pdf" "QUJD" "doc.pdf") rfl
    (by decide)

/-- C8: the History Compactor keeps the last 1 turn for the
image-generation variant, the last 2 for research, at most the last 50 for
`gemini-3-pro-preview`, and the full history for every other variant; every
kept list is a suffix of the input, so the original order is preserved. -/
theorem history_compactor_policy (h : List HistoryMessage) :
    ((limitedHistory "gemini-2.5-flash-image" h).length = min 1 h.length ∧
      List.IsSuffix (limitedHistory "gemini-2.5-flash-image" h) h) ∧
    ((limitedHistory "research" h).length = min 2 h.length ∧
      List.IsSuffix (limitedHistory "research" h) h) ∧
    ((limitedHistory "gemini-3-pro-preview" h).length = min 50 h.length ∧
      List.IsSuffix (limitedHistory "gemini-3-pro-preview" h) h) ∧
    (∀ m : String, m ≠ "gemini-2.5-flash-image" → m ≠ "research" →
      m ≠ "gemini-3-pro-preview" → limitedHistory m h = h) := by
  have e1 : limitedHistory "gemini-2.5-flash-image" h = jsSliceLast 1 h := rfl
  have e2 : limitedHistory "research" h = jsSliceLast 2 h := rfl
  have e3 : limitedHistory "gemini-3-pro-preview" h = jsSliceLast 50 h := rfl
  refine ⟨⟨?_, ?_⟩, ⟨?_, ?_⟩, ⟨?_, ?_⟩, ?_⟩
  · rw [e1, jsSliceLast, List.length_drop]; omega
  · rw [e1]; exact List.drop_suffix _ _
  · rw [e2, jsSliceLast, List.length_drop]; omega
  · rw [e2]; exact List.drop_suffix _ _
  · rw [e3, jsSliceLast, List.length_drop]; omega
  · rw [e3]; exact List.drop_suffix _ _
  · intro m h1 h2 h3
    simp [limitedHistory, h1, h2, h3]

/-- Witness for C8: a non-special variant keeps the full history. -/
theorem history_compactor_witness :
    limitedHistory "gemini-3-flash-preview" [HistoryMessage.mk "user" "hi"] =
      [HistoryMessage.mk "user" "hi"] :=
  (history_compactor_policy [HistoryMessage.mk "user" "hi"]).2.2.2 "gemini-3-flash-preview"
    (by decide) (by decide) (by decide)

/-- C9: the Cleanup Reactor issues one delete call per extractable
attachment URL — independent of any outcome, so no failure stops the rest —
deletes every message record, never logs a 404 as an error, logs every other
failure, and `extractStoragePath` handles both URL conventions with
URL-decoding (concrete evaluations over the two demo conventions
included). -/
theorem cleanup_reactor (msgs : List CMessage) (outcome : String → DeleteOutcome) :
    (runCleanup msgs outcome).storageDeleteCalls = storagePathsToDelete msgs ∧
    (runCleanup msgs outcome).messageDeleteCount = msgs.length ∧
    (∀ p, outcome p = DeleteOutcome.missing →
      p ∉ (runCleanup msgs outcome).loggedFailures) ∧
    (∀ p e, p ∈ storagePathsToDelete msgs → outcome p = DeleteOutcome.failure e →
      p ∈ (runCleanup msgs outcome).loggedFailures) ∧
    extractStoragePath demoUrlO = some "users/u1/attachments/photo 1.png" ∧
    extractStoragePath demoUrlSigned = some "users/u1/generated/img final.png" ∧
    storagePathsToDelete demoMessages =
      ["users/u1/attachments/photo 1.png", "users/u1/generated/img final.png"] := by
  refine ⟨rfl, rfl, ?_, ?_, by decide, by decide, by decide⟩
  · intro p hp hmem
    have hmem2 : p ∈ (storagePathsToDelete msgs).filter
        (fun q => deleteLogsError (outcome q)) := hmem
    rw [List.mem_filter] at hmem2
    rw [hp] at hmem2
    exact Bool.noConfusion hmem2.2
  · intro p e hp hf
    show p ∈ (storagePathsToDelete msgs).filter (fun q => deleteLogsError (outcome q))
    rw [List.mem_filter, hf]
    exact ⟨hp, rfl⟩

/-- Witness for C9: over the two-convention demo conversation, the missing
path is not logged as an error while the failing one is. -/
theorem cleanup_reactor_witness :
    "users/u1/attachments/photo 1.png" ∉
      (runCleanup demoMessages demoOutcome).loggedFailures ∧
    "users/u1/generated/img final.png" ∈
      (runCleanup demoMessages demoOutcome).loggedFailures :=
  ⟨(cleanup_reactor demoMessages demoOutcome).2.2.1 "users/u1/attachments/photo 1.png"
      (by decide),
   (cleanup_reactor demoMessages demoOutcome).2.2.2.1 "users/u1/generated/img final.png"
      "permission denied" (by decide) (by decide)⟩

/-- C10: `detectAspectRatio` is total with values in the closed set of seven
ratio strings, and any input whose dimensions cannot be parsed yields
`1:1`. -/
theorem aspect_ratio_total_closed (s : String) :
    detectAspectRatio s ∈ ratioStrings ∧
    (getImageDimensions s = none → detectAspectRatio s = "1:1") := by
  constructor
  · unfold detectAspectRatio
    rcases hd : getImageDimensions s with _ | ⟨w, hgt⟩
    · simp [ratioStrings]
    · exact calculateAspectRatio_mem w hgt
  · intro hn
    unfold detectAspectRatio
    rw [hn]

/-- Witness for C10: the empty (unparseable) input falls back to `1:1`. -/
theorem aspect_ratio_witness : detectAspectRatio "" = "1:1" :=
  (aspect_ratio_total_closed "").2 (by decide)

end Stilq
